import Mathlib

/-!
Verification of the pediatric medication-education service (`ZJJTools/main.py`).

The development shallowly embeds the Python source:

* `Json`, `json_loads` — a model of Python's strict `json.loads` (RFC 8259
  grammar, rejecting raw control characters inside string literals).
* `stripFences`, `pyStrip`, `findSpan`, `normalizeWs`, `extract_feedback` —
  the feedback-extraction portion of `self_refine_education`
  (`main.py` lines 84–90).
* `chat`, `generate_v1`, `self_refine_education`, `generate_v3`,
  `api_v1`, `api_refine`, `ping` — the orchestration, with the upstream
  completion endpoint modelled as a script of replies consumed in order and
  a log recording every outbound call (messages and temperature).

Temperatures are modelled as exact rationals (`0.2` as `1/5`).
-/

namespace ZJJ

/-- Values produced by Python's `json.loads`: `null`/`None`, booleans, integer
numbers, floating numbers (stored exactly as mantissa and decimal exponent,
`flt m e` denoting `m * 10 ^ e`), strings, arrays, and objects.  Objects keep
the member list in parse order; Python dict semantics (later duplicate keys
overwrite earlier ones) are recovered by `pyDictGet` looking up the last
occurrence. -/
inductive Json where
  | null : Json
  | bool : Bool → Json
  | num : Int → Json
  | flt : Int → Int → Json
  | str : String → Json
  | arr : List Json → Json
  | obj : List (String × Json) → Json

/-- JSON insignificant whitespace, per RFC 8259 and Python's `json` module. -/
def jsonWs (c : Char) : Bool :=
  c = ' ' || c = '\t' || c = '\n' || c = '\r'

/-- Skips insignificant whitespace. -/
def skipWs (s : List Char) : List Char :=
  s.dropWhile jsonWs

/-- Value of a single hex digit. -/
def hexVal (c : Char) : Option Nat :=
  if '0' ≤ c ∧ c ≤ '9' then some (c.toNat - 48)
  else if 'a' ≤ c ∧ c ≤ 'f' then some (c.toNat - 87)
  else if 'A' ≤ c ∧ c ≤ 'F' then some (c.toNat - 55)
  else none

/-- Translation of a single-character JSON escape (`\"`, `\\`, `\/`, `\b`,
`\f`, `\n`, `\r`, `\t`).  Any other escape is rejected, as in Python's strict
`json.loads`. -/
def escChar : Char → Option Char
  | '"' => some '"'
  | '\\' => some '\\'
  | '/' => some '/'
  | 'b' => some '\x08'
  | 'f' => some '\x0c'
  | 'n' => some '\n'
  | 'r' => some '\r'
  | 't' => some '\t'
  | _ => none

/-- Parses the body of a JSON string literal, after the opening quote, up to
and including the closing quote; returns the decoded characters and the
remaining input.  Raw control characters (code points below 0x20) are
rejected, exactly as Python's strict `json.loads` does — this is why the
source normalizes newlines/tabs away before parsing.  `\uXXXX` escapes are
decoded with `Char.ofNat` (surrogate-pair recombination, which Python also
performs, is not modelled; no claim depends on it). -/
def parseStringBody : List Char → Option (List Char × List Char)
  | [] => none
  | c :: rest =>
    if c = '"' then some ([], rest)
    else if c = '\\' then
      match rest with
      | 'u' :: h1 :: h2 :: h3 :: h4 :: rest2 => do
        let a ← hexVal h1
        let b ← hexVal h2
        let c2 ← hexVal h3
        let d ← hexVal h4
        let (body, rem) ← parseStringBody rest2
        pure (Char.ofNat (((a * 16 + b) * 16 + c2) * 16 + d) :: body, rem)
      | e :: rest2 => do
        let c2 ← escChar e
        let (body, rem) ← parseStringBody rest2
        pure (c2 :: body, rem)
      | [] => none
    else if c.toNat < 32 then none
    else (parseStringBody rest).map (fun p => (c :: p.1, p.2))

/-- Digits of a decimal literal interpreted as a natural number. -/
def digitsVal (ds : List Char) : Nat :=
  ds.foldl (fun a c => 10 * a + (c.toNat - 48)) 0

/-- Parses the integer part of a JSON number: a single `0`, or a nonzero
digit followed by digits (leading zeros are rejected by the JSON grammar). -/
def parseIntPart : List Char → Option (List Char × List Char)
  | [] => none
  | c :: rest =>
    if c = '0' then some (['0'], rest)
    else if c.isDigit then
      some (c :: rest.takeWhile Char.isDigit, rest.dropWhile Char.isDigit)
    else none

/-- Parses an optional fraction part `.digits`; a dot not followed by a digit
is an error (Python's number grammar would leave the dot as trailing junk,
which then fails at the same inputs). -/
def parseFracPart : List Char → Option (List Char × List Char)
  | '.' :: rest =>
    let ds := rest.takeWhile Char.isDigit
    if ds.isEmpty then none else some (ds, rest.dropWhile Char.isDigit)
  | s => some ([], s)

/-- Parses an optional exponent part `e[+-]digits`. -/
def parseExpPart : List Char → Option (Option Int × List Char)
  | c :: rest =>
    if c = 'e' ∨ c = 'E' then
      match rest with
      | '+' :: r2 =>
        let ds := r2.takeWhile Char.isDigit
        if ds.isEmpty then none
        else some (some (Int.ofNat (digitsVal ds)), r2.dropWhile Char.isDigit)
      | '-' :: r2 =>
        let ds := r2.takeWhile Char.isDigit
        if ds.isEmpty then none
        else some (some (-(Int.ofNat (digitsVal ds))), r2.dropWhile Char.isDigit)
      | r2 =>
        let ds := r2.takeWhile Char.isDigit
        if ds.isEmpty then none
        else some (some (Int.ofNat (digitsVal ds)), r2.dropWhile Char.isDigit)
    else some (none, c :: rest)
  | [] => some (none, [])

/-- Parses a JSON number.  An integer literal becomes `Json.num`; a literal
with a fraction or exponent becomes `Json.flt` (Python would produce a
`float`; the value is kept exact here). -/
def parseNumber (s : List Char) : Option (Json × List Char) :=
  let (neg, s1) := match s with
    | '-' :: r => (true, r)
    | _ => (false, s)
  match parseIntPart s1 with
  | none => none
  | some (ip, r1) =>
    match parseFracPart r1 with
    | none => none
    | some (fds, r2) =>
      match parseExpPart r2 with
      | none => none
      | some (expo, r3) =>
        let sgn : Int := if neg then -1 else 1
        match fds, expo with
        | [], none => some (Json.num (sgn * Int.ofNat (digitsVal ip)), r3)
        | _, _ =>
          let m : Int :=
            sgn * (Int.ofNat (digitsVal ip) * (10 : Int) ^ fds.length
                   + Int.ofNat (digitsVal fds))
          let e : Int := (expo.getD 0) - Int.ofNat fds.length
          some (Json.flt m e, r3)

mutual

/-- Recursive-descent parse of one JSON value from the head of the input
(after skipping whitespace), following Python's `json.loads` grammar.  The
`fuel` argument only bounds recursion depth; `json_loads` supplies enough
fuel for its whole input. -/
def parseValue : Nat → List Char → Option (Json × List Char)
  | 0, _ => none
  | fuel + 1, s =>
    match skipWs s with
    | [] => none
    | '"' :: rest =>
      (parseStringBody rest).map (fun p => (Json.str (String.mk p.1), p.2))
    | '\x7b' :: rest =>
      match skipWs rest with
      | '\x7d' :: r2 => some (Json.obj [], r2)
      | s2 => parseMembers fuel s2 []
    | '[' :: rest =>
      match skipWs rest with
      | ']' :: r2 => some (Json.arr [], r2)
      | s2 => parseElems fuel s2 []
    | 't' :: 'r' :: 'u' :: 'e' :: rest => some (Json.bool true, rest)
    | 'f' :: 'a' :: 'l' :: 's' :: 'e' :: rest => some (Json.bool false, rest)
    | 'n' :: 'u' :: 'l' :: 'l' :: rest => some (Json.null, rest)
    | s1 => parseNumber s1

/-- Parses the members of a JSON object after the opening brace (first member
expected at the head of the input, whitespace already skipped). -/
def parseMembers : Nat → List Char → List (String × Json) →
    Option (Json × List Char)
  | 0, _, _ => none
  | fuel + 1, s, acc =>
    match s with
    | '"' :: rest =>
      match parseStringBody rest with
      | none => none
      | some (key, r2) =>
        match skipWs r2 with
        | ':' :: r3 =>
          match parseValue fuel r3 with
          | none => none
          | some (v, r4) =>
            match skipWs r4 with
            | ',' :: r5 => parseMembers fuel (skipWs r5) (acc ++ [(String.mk key, v)])
            | '\x7d' :: r5 => some (Json.obj (acc ++ [(String.mk key, v)]), r5)
            | _ => none
        | _ => none
    | _ => none

/-- Parses the elements of a JSON array after the opening bracket (first
element expected at the head of the input). -/
def parseElems : Nat → List Char → List Json → Option (Json × List Char)
  | 0, _, _ => none
  | fuel + 1, s, acc =>
    match parseValue fuel s with
    | none => none
    | some (v, r1) =>
      match skipWs r1 with
      | ',' :: r2 => parseElems fuel r2 (acc ++ [v])
      | ']' :: r2 => some (Json.arr (acc ++ [v]), r2)
      | _ => none

end

/-- Model of Python's `json.loads`: parse exactly one JSON value, allowing
surrounding whitespace; any other trailing input is an error
(`json.JSONDecodeError`, modelled as `none`). -/
def json_loads (s : List Char) : Option Json :=
  match parseValue (2 * s.length + 4) s with
  | none => none
  | some (v, rest) => if skipWs rest = [] then some v else none

/-- backtick character, written via its code point. -/
def btk : Char := Char.ofNat 96

/-- Three-backtick markdown fence marker. -/
def fence3 : List Char := [btk, btk, btk]

/-- Markdown fence marker with `json` language tag. -/
def fenceJson : List Char := [btk, btk, btk, 'j', 's', 'o', 'n']

/-- Fuel-indexed worker for `stripFences`; each step consumes at least one
character, so fuel equal to the input length suffices (out of fuel the input
is returned unchanged, which is never reached from `stripFences`). -/
def stripFencesF : Nat → List Char → List Char
  | 0, s => s
  | fuel + 1, s =>
    match s with
    | [] => []
    | c :: cs =>
      if fenceJson.isPrefixOf (c :: cs) then stripFencesF fuel (cs.drop 6)
      else if fence3.isPrefixOf (c :: cs) then stripFencesF fuel (cs.drop 2)
      else c :: stripFencesF fuel cs

/-- Model of `re.sub(r"` ```json|``` `", "", content)` (`main.py` line 84):
delete every markdown fence marker, preferring the 7-character `json`-tagged
marker at each position, scanning left to right without overlap. -/
def stripFences (s : List Char) : List Char :=
  stripFencesF s.length s

/-- Characters removed from both ends by Python's `str.strip()` (the ASCII
whitespace set; Unicode whitespace, which Python also strips, does not occur
in any input considered here). -/
def isPySpace (c : Char) : Bool :=
  c = ' ' || c = '\t' || c = '\n' || c = '\r' || c = '\x0b' || c = '\x0c'

/-- Model of Python's `str.strip()` (`main.py` line 84). -/
def pyStrip (s : List Char) : List Char :=
  ((s.dropWhile isPySpace).reverse.dropWhile isPySpace).reverse

/-- Model of `re.search(r"\{.*\}", content, re.DOTALL)` (`main.py` line 85):
the leftmost, greedy match runs from the first opening brace to the last
closing brace of the text, provided the latter comes strictly after the
former; otherwise there is no match. -/
def findSpan (s : List Char) : Option (List Char) :=
  let t := s.dropWhile (fun c => !(c = '\x7b'))
  let u := (t.reverse.dropWhile (fun c => !(c = '\x7d'))).reverse
  if 2 ≤ u.length then some u else none

/-- Model of `re.sub(r"[\n\r\t]", " ", ...)` (`main.py` line 88): every
literal newline, carriage return, and tab becomes a single space. -/
def normalizeWs (s : List Char) : List Char :=
  s.map (fun c => if c = '\n' ∨ c = '\r' ∨ c = '\t' then ' ' else c)

/-- Python `dict.get(k, dflt)` over the parsed member list: later duplicate
keys overwrite earlier ones, so the last occurrence wins. -/
def pyDictGet (members : List (String × Json)) (k : String) (dflt : Json) : Json :=
  match members.reverse.lookup k with
  | some v => v
  | none => dflt

/-- Failure modes of the extraction step: `noJsonSpan` is the
`RuntimeError("LLM 未返回合法 JSON 结构")` raised when the brace-span search
fails (`main.py` line 87); `jsonParseError` is the `json.JSONDecodeError`
escaping from `json.loads` (line 89); `notADict` models the `AttributeError`
Python would raise if `json.loads` returned a non-dict (unreachable, because
the span always starts with an opening brace). -/
inductive ExtractError where
  | noJsonSpan : ExtractError
  | jsonParseError : ExtractError
  | notADict : ExtractError
  deriving DecidableEq

/-- Model of the parsing portion of `self_refine_education`
(`main.py` lines 84–90): strip markdown fences, strip outer whitespace,
locate the widest brace span, normalize raw newlines/CRs/tabs inside it to
spaces, parse it as JSON, and read the `feedback` field with `""` as
default. -/
def extract_feedback (content : String) : Except ExtractError Json :=
  match findSpan (pyStrip (stripFences content.data)) with
  | none => Except.error ExtractError.noJsonSpan
  | some span =>
    match json_loads (normalizeWs span) with
    | none => Except.error ExtractError.jsonParseError
    | some (Json.obj members) => Except.ok (pyDictGet members ("feedback") (Json.str ("")))
    | some _ => Except.error ExtractError.notADict

/-- Request-body model `Patient` (`main.py` lines 24–30): six required text
fields, with the source's Chinese field names. -/
structure Patient where
  «姓名» : String
  «年龄» : String
  «性别» : String
  «诊断» : String
  «药品» : String
  «用量» : String

/-- Escape of one character as Python's `json.dumps` with
`ensure_ascii=False` performs it: backslash, double quote, and the named
control characters get two-character escapes, any other control character a
`\u00XX` escape, and everything else (including non-ASCII) is kept. -/
def jsonEscapeChar (c : Char) : String :=
  if c = '"' then "\\\""
  else if c = '\\' then "\\\\"
  else if c = '\n' then "\\n"
  else if c = '\r' then "\\r"
  else if c = '\t' then "\\t"
  else if c = '\x08' then "\\b"
  else if c = '\x0c' then "\\f"
  else if c.toNat < 32 then
    "\\u00" ++ String.singleton (Char.ofNat (if c.toNat / 16 < 10 then 48 + c.toNat / 16 else 87 + c.toNat / 16))
            ++ String.singleton (Char.ofNat (if c.toNat % 16 < 10 then 48 + c.toNat % 16 else 87 + c.toNat % 16))
  else String.singleton c

/-- JSON escape of a whole string. -/
def jsonEscape (s : String) : String :=
  String.join (s.data.map jsonEscapeChar)

/-- Quoted JSON string literal. -/
def jstr (s : String) : String :=
  "\"" ++ jsonEscape s ++ "\""

/-- Model of `json.dumps(patient, ensure_ascii=False)` applied to
`req.patient.dict()` (`main.py` line 52): pydantic's `.dict()` preserves the
declaration order of the six fields, and `json.dumps` uses `", "` and `": "`
separators. -/
def dumpsPatient (p : Patient) : String :=
  "\x7b\"姓名\": " ++ jstr p.«姓名» ++ ", \"年龄\": " ++ jstr p.«年龄»
    ++ ", \"性别\": " ++ jstr p.«性别» ++ ", \"诊断\": " ++ jstr p.«诊断»
    ++ ", \"药品\": " ++ jstr p.«药品» ++ ", \"用量\": " ++ jstr p.«用量» ++ "\x7d"

/-- Model of `json.dumps(patient, ensure_ascii=False, indent=2)`
(`main.py` lines 74 and 111): one member per line, two-space indent,
`","` line separator, `": "` key separator. -/
def dumpsPatientIndent2 (p : Patient) : String :=
  "\x7b\n  \"姓名\": " ++ jstr p.«姓名» ++ ",\n  \"年龄\": " ++ jstr p.«年龄»
    ++ ",\n  \"性别\": " ++ jstr p.«性别» ++ ",\n  \"诊断\": " ++ jstr p.«诊断»
    ++ ",\n  \"药品\": " ++ jstr p.«药品» ++ ",\n  \"用量\": " ++ jstr p.«用量» ++ "\n\x7d"

/-- Chat message: a role tag and text content. -/
structure Message where
  role : String
  content : String

/-- Record of one outbound completion call: the messages sent and the
sampling temperature (an exact rational; the source's `0.2` is `1/5`). -/
structure CallRecord where
  messages : List Message
  temp : ℚ

/-- Scripted replies of the upstream completion endpoint, consumed in call
order: `Except.ok content` models a successful response whose first choice
has the given text content, `Except.error msg` models `chat` raising
(non-success status from `raise_for_status`, timeout, or a body of the wrong
shape). -/
abbrev LLMScript := List (Except String String)

/-- Python exceptions that can escape the handlers: an upstream `httpx`
failure propagated out of `chat`, the extraction failures of
`self_refine_education`, or — an artifact of the scripted model only — the
script running out of replies. -/
inductive PyErr where
  | upstream : String → PyErr
  | malformed : ExtractError → PyErr
  | scriptEnded : PyErr

/-- Computation model: a step takes the remaining upstream script and returns
the outcome (a value, or the Python exception propagating), the script that
remains, and the log of completion calls issued, in order. -/
abbrev M (α : Type) := LLMScript → Except PyErr α × LLMScript × List CallRecord

/-- Model of `chat` (`main.py` lines 40–46): issue exactly one call to the
completion endpoint and return the first choice's message content; a failing
response propagates as an exception.  The call is logged with its messages
and temperature. -/
def chat (messages : List Message) (temp : ℚ) : M String := fun script =>
  match script with
  | [] => (Except.error PyErr.scriptEnded, [], [⟨messages, temp⟩])
  | Except.ok content :: rest => (Except.ok content, rest, [⟨messages, temp⟩])
  | Except.error msg :: rest => (Except.error (PyErr.upstream msg), rest, [⟨messages, temp⟩])

/-- Draft-stage prompt: the f-string of `generate_v1` (`main.py` lines
50–65). -/
def generate_v1_prompt (patient : Patient) : String :=
  "\n你是儿科临床药师，请按以下模板写一份用药教育，所有小标题内容用“- ”清单呈现。\n患者："
    ++ dumpsPatient patient
    ++ "\n\n模板：\n前言（尊敬的XX家长，您好！您的孩子因<原因>，需口服<药名>，该药为<类别>。为了……特此沟通。）\n\n1. 药物作用和目的\n2. 剂量和给药时间\n3. 不良反应监测\n4. 药物相互作用\n5. 储存管理\n6. 生活方式建议\n\n如有疑问请随时联系儿科医生或药师……祝孩子早日康复！\n"

/-- Model of `generate_v1` (`main.py` lines 49–66): build the draft prompt
and issue one completion call at temperature 0.2, returning its content
unchanged. -/
def generate_v1 (patient : Patient) : M String :=
  chat [⟨"user", generate_v1_prompt patient⟩] (1 / 5)

/-- Feedback-stage prompt: the f-string of `self_refine_education`
(`main.py` lines 70–82). -/
def self_refine_prompt (patient : Patient) (v1 : String) : String :=
  "你是资深儿科临床药师。\n请用 3-5 句话、专业且通俗地指出下方 V1 用药教育在准确性、完整性或家长易读性上的具体不足（不要出现模板字面量）。\n\n【患者信息】\n"
    ++ dumpsPatientIndent2 patient
    ++ "\n\n【V1 用药教育】\n"
    ++ v1
    ++ "\n输出要求（严格执行）：\n- 返回内容只能是**一行纯 JSON**，禁止出现 Markdown 围栏、禁止多行文本；\n- 所有长文本里的换行、制表符必须转义成 \\n、\\t；\n- 结构如下：\n\x7b\"feedback\":\"真实评价\"\x7d"

/-- Model of `self_refine_education` (`main.py` lines 69–90): build the
feedback prompt, issue one completion call at temperature 0, and run the
extraction step on the reply.  The extracted value is whatever
`obj.get("feedback", "")` produced — the annotated `str` return type is not
enforced, so the result is an arbitrary `Json` value. -/
def self_refine_education (patient : Patient) (v1 : String) : M Json := fun script =>
  match chat [⟨"user", self_refine_prompt patient v1⟩] 0 script with
  | (Except.error e, s1, log) => (Except.error e, s1, log)
  | (Except.ok content, s1, log) =>
    match extract_feedback content with
    | Except.ok j => (Except.ok j, s1, log)
    | Except.error e => (Except.error (PyErr.malformed e), s1, log)

/-- Refine-stage prompt: the f-string of `generate_v3` (`main.py` lines
94–120). -/
def generate_v3_prompt (patient : Patient) (v1 : String) (feedback : String) : String :=
  "你是儿科临床药师。\n请根据下方「V1 内容」和「审方反馈」重写一份完整、准确、家长友好的 V3 用药教育，必须满足：\n\n1. 禁止出现任何 Markdown 符号（如 ###、***、** 等）；\n2. 标题仅用中文数字序号（如“1. 药物作用和目的”），下方用“- ”引出清单；\n3. 包含且仅包含以下 6 个小节：\n   - 前言（原因、药名、类别、祝愿）\n   - 1. 药物作用和目的\n   - 2. 剂量和给药时间（含漏服处理、分剂量操作）\n   - 3. 不良反应监测（≥3 条常见表现）\n   - 4. 药物相互作用（简洁提醒）\n   - 5. 储存管理（温度、避光、有效期）\n   - 6. 生活方式建议（饮食、作息、复诊）\n   - 如有疑问请随时联系儿科医生或药师，我们将持续为您和孩子的健康保驾护航。祝孩子早日康复！\n4. 全文不要再出现任何额外解释或总结。\n\n【患者信息】\n"
    ++ dumpsPatientIndent2 patient
    ++ "\n\n【V1 内容】\n"
    ++ v1
    ++ "\n\n【审方反馈】\n"
    ++ feedback
    ++ "\n\n直接输出最终用药教育全文，不要额外解释。\n"

/-- Model of `generate_v3` (`main.py` lines 93–121): build the refine prompt
(embedding patient, draft, and feedback) and issue one completion call at
temperature 0.2, returning its content unchanged. -/
def generate_v3 (patient : Patient) (v1 : String) (feedback : String) : M String :=
  chat [⟨"user", generate_v3_prompt patient v1 feedback⟩] (1 / 5)

/-- Python `repr` of a string, as used when a non-string value is embedded in
an f-string via `str()` on a container.  The quote choice and the escapes for
backslash, quotes, and the common control characters follow CPython; exotic
non-printables are approximated with `\xXX`.  No claim depends on this
rendering — it is only reached when extraction yields a container. -/
def pyReprStr (s : String) : String :=
  let useDouble : Bool := s.data.contains '\'' && !(s.data.contains '"')
  let q : Char := if useDouble then '"' else '\''
  let esc : Char → String := fun c =>
    if c = '\\' then "\\\\"
    else if c = q then "\\" ++ String.singleton q
    else if c = '\n' then "\\n"
    else if c = '\r' then "\\r"
    else if c = '\t' then "\\t"
    else if c.toNat < 32 then
      "\\x" ++ String.singleton (Char.ofNat (if c.toNat / 16 < 10 then 48 + c.toNat / 16 else 87 + c.toNat / 16))
            ++ String.singleton (Char.ofNat (if c.toNat % 16 < 10 then 48 + c.toNat % 16 else 87 + c.toNat % 16))
    else String.singleton c
  String.singleton q ++ String.join (s.data.map esc) ++ String.singleton q

/-- Decimal rendering of the exact value `m * 10 ^ e` of a `Json.flt`.  This
approximates `str()` of a Python float (whose shortest-roundtrip formatting
is a floating-point artifact outside this model); no claim depends on it. -/
def renderFlt (m : Int) (e : Int) : String :=
  toString m ++ "e" ++ toString e

/-- Python `repr` of a parsed JSON value: `None`/`True`/`False`, numbers,
string reprs, and recursively rendered lists and dicts. -/
def pyRepr : Json → String
  | Json.null => "None"
  | Json.bool true => "True"
  | Json.bool false => "False"
  | Json.num n => toString n
  | Json.flt m e => renderFlt m e
  | Json.str s => pyReprStr s
  | Json.arr xs =>
    "[" ++ String.intercalate (", ") (xs.attach.map (fun x => pyRepr x.1)) ++ "]"
  | Json.obj ms =>
    "\x7b" ++ String.intercalate (", ")
      (ms.attach.map (fun x => pyReprStr x.1.1 ++ ": " ++ pyRepr x.1.2)) ++ "\x7d"
decreasing_by
  · have h := List.sizeOf_lt_of_mem x.2
    simp_all
    omega
  · have h := List.sizeOf_lt_of_mem x.2
    obtain ⟨⟨a, b⟩, hv⟩ := x
    simp_all
    omega

/-- Python `str()` of a parsed JSON value, as applied by the f-string
`{feedback}` in `generate_v3` when extraction produced a non-string value: a
string is embedded verbatim, anything else through its `repr` (for scalars,
through their textual form). -/
def pyStr : Json → String
  | Json.str s => s
  | j => pyRepr j

/-- Sequencing of the two stages inside `api_refine` (`main.py` lines
145–146): run `self_refine_education`, and only if it succeeds run
`generate_v3` on the extracted feedback; the first failure propagates and the
second stage is then never started. -/
def api_refine_flow (patient : Patient) (v1 : String) : M (Json × String) := fun script =>
  match self_refine_education patient v1 script with
  | (Except.error e, s1, log) => (Except.error e, s1, log)
  | (Except.ok feedback, s1, log) =>
    match generate_v3 patient v1 (pyStr feedback) s1 with
    | (Except.ok v3, s2, log2) => (Except.ok (feedback, v3), s2, log ++ log2)
    | (Except.error e, s2, log2) => (Except.error e, s2, log ++ log2)

/-- HTTP responses of the service: a 200 with a JSON body; FastAPI's
automatic 422 for a request body failing validation against the declared
pydantic model (raised before the handler runs); or the
`HTTPException(status_code=500, detail=...)` raised inside a handler. -/
inductive Response where
  | ok : Json → Response
  | validationError : Nat → Response
  | httpError : Nat → String → Response

/-- Textual rendering `str(e)` of the exceptions the handlers wrap into a 500
detail.  The `RuntimeError` message is the source's literal; the
`JSONDecodeError` text (which embeds positions) and `httpx` messages are
abbreviated — no claim inspects these strings. -/
def errDetail : PyErr → String
  | PyErr.upstream msg => msg
  | PyErr.malformed ExtractError.noJsonSpan => "LLM 未返回合法 JSON 结构"
  | PyErr.malformed _ => "json decode error"
  | PyErr.scriptEnded => "no scripted reply"

/-- Reads a required text field of the inbound payload.  A missing field or a
non-string value is a validation failure, per the pydantic `str` annotation
(pydantic v2 semantics; v1 would additionally coerce numbers to strings —
the claims checked here only rely on the missing-field case, where both
versions reject). -/
def getStrField (members : List (String × Json)) (k : String) : Option String :=
  match members.reverse.lookup k with
  | some (Json.str s) => some s
  | _ => none

/-- Validation of the inbound `patient` object against the `Patient` model:
all six fields present and text. -/
def parsePatient : Json → Option Patient
  | Json.obj ms => do
    let f1 ← getStrField ms ("姓名")
    let f2 ← getStrField ms ("年龄")
    let f3 ← getStrField ms ("性别")
    let f4 ← getStrField ms ("诊断")
    let f5 ← getStrField ms ("药品")
    let f6 ← getStrField ms ("用量")
    pure ⟨f1, f2, f3, f4, f5, f6⟩
  | _ => none

/-- Validation of a `V1Request` body (`main.py` lines 32–33): an object with
a `patient` member that validates as `Patient`. -/
def parseV1Request (payload : Json) : Option Patient :=
  match payload with
  | Json.obj ms =>
    match ms.reverse.lookup ("patient") with
    | some pj => parsePatient pj
    | none => none
  | _ => none

/-- Validation of a `RefineRequest` body (`main.py` lines 35–37): a `patient`
member and a text `v1` member. -/
def parseRefineRequest (payload : Json) : Option (Patient × String) :=
  match payload with
  | Json.obj ms =>
    match ms.reverse.lookup ("patient") with
    | some pj =>
      match parsePatient pj, getStrField ms ("v1") with
      | some p, some v1 => some (p, v1)
      | _, _ => none
    | none => none
  | _ => none

/-- Model of `POST /api/v1` (`main.py` lines 134–140).  FastAPI validates the
body against `V1Request` before the handler runs: a malformed body yields a
422 `RequestValidationError` response and the handler — hence the upstream
call — is never started.  Inside the handler, any exception from
`generate_v1` is wrapped into `HTTPException(500, str(e))`. -/
def api_v1 (payload : Json) : LLMScript → Response × LLMScript × List CallRecord :=
  fun script =>
    match parseV1Request payload with
    | none => (Response.validationError 422, script, [])
    | some patient =>
      match generate_v1 patient script with
      | (Except.ok v1, s1, log) => (Response.ok (Json.obj [("v1", Json.str v1)]), s1, log)
      | (Except.error e, s1, log) => (Response.httpError 500 (errDetail e), s1, log)

/-- Model of `POST /api/refine` (`main.py` lines 142–149), with the same
validation-before-handler behavior as `api_v1`.  On success the response body
carries the extracted feedback value and the refined text. -/
def api_refine (payload : Json) : LLMScript → Response × LLMScript × List CallRecord :=
  fun script =>
    match parseRefineRequest payload with
    | none => (Response.validationError 422, script, [])
    | some (patient, v1) =>
      match api_refine_flow patient v1 script with
      | (Except.ok (feedback, v3), s1, log) =>
        (Response.ok (Json.obj [("feedback", feedback), ("v3", Json.str v3)]), s1, log)
      | (Except.error e, s1, log) => (Response.httpError 500 (errDetail e), s1, log)

/-- Model of `GET /ping` (`main.py` lines 152–155): a synchronous handler
whose body is `return "pong"`; it touches no other state and makes no
outbound call. -/
def ping : LLMScript → Response × LLMScript × List CallRecord :=
  fun script => (Response.ok (Json.str ("pong")), script, [])

/-! ## Helper lemmas -/

/-- Presence of a brace-delimited span: some opening brace occurs strictly
before some closing brace, which is exactly when `re.search(r"\{.*\}", s,
re.DOTALL)` matches. -/
def SpanIn (s : List Char) : Prop :=
  ∃ a b c : List Char, s = a ++ '\x7b' :: (b ++ '\x7d' :: c)

/-- Executable check for the presence of a brace span. -/
def hasSpanB (s : List Char) : Bool :=
  match s.dropWhile (fun c => !(c = '\x7b')) with
  | [] => false
  | _ :: rest => rest.contains '\x7d'

/-- Dropping from an append whose marker element fails the predicate stops no
later than the marker. -/
theorem dropWhile_append_cons_of_neg (p : Char → Bool) (c : Char)
    (hc : p c = false) (a d : List Char) :
    (a ++ c :: d).dropWhile p = a.dropWhile p ++ c :: d := by
  induction a with
  | nil => simp [List.dropWhile_cons, hc]
  | cons x a1 ih =>
    simp only [List.cons_append, List.dropWhile_cons]
    by_cases hx : p x = true
    · rw [if_pos hx, if_pos hx, ih]
    · rw [if_neg hx, if_neg hx]
      rfl

/-- The head of a nonempty `dropWhile` result fails the predicate. -/
theorem dropWhile_head_false {p : Char → Bool} (l : List Char) :
    ∀ a l', l.dropWhile p = a :: l' → p a = false := by
  induction l with
  | nil => intro a l' h; cases h
  | cons x xs ih =>
    intro a l' h
    by_cases hx : p x = true
    · rw [List.dropWhile_cons_of_pos hx] at h
      exact ih a l' h
    · rw [List.dropWhile_cons_of_neg hx] at h
      cases h
      exact Bool.eq_false_iff.mpr hx

/-- Any brace span forces the executable check to succeed. -/
theorem hasSpanB_of_spanIn {s : List Char} (h : SpanIn s) : hasSpanB s = true := by
  obtain ⟨a, b, c, rfl⟩ := h
  unfold hasSpanB
  rw [dropWhile_append_cons_of_neg (fun c => !(c = '\x7b')) '\x7b' (by decide) a
    (b ++ '\x7d' :: c)]
  have hmem : '\x7d' ∈ b ++ '\x7d' :: c :=
    List.mem_append_right b (List.mem_cons_self _ _)
  cases ha : a.dropWhile (fun c => !(c = '\x7b')) with
  | nil =>
    simp only [List.nil_append]
    exact List.elem_eq_true_of_mem hmem
  | cons x xs =>
    simp only [List.cons_append]
    exact List.elem_eq_true_of_mem
      (List.mem_append_right xs (List.mem_cons_of_mem _ hmem))

/-- `stripFencesF` only deletes characters. -/
theorem stripFencesF_sublist (n : Nat) :
    ∀ s : List Char, List.Sublist (stripFencesF n s) s := by
  induction n with
  | zero => intro s; exact List.Sublist.refl s
  | succ n ih =>
    intro s
    match s with
    | [] => exact List.Sublist.refl []
    | c :: cs =>
      show List.Sublist (stripFencesF (n + 1) (c :: cs)) (c :: cs)
      simp only [stripFencesF]
      by_cases h7 : fenceJson.isPrefixOf (c :: cs) = true
      · rw [if_pos h7]
        exact ((ih _).trans (List.drop_sublist 6 cs)).trans (List.sublist_cons_self c cs)
      · rw [if_neg h7]
        by_cases h3 : fence3.isPrefixOf (c :: cs) = true
        · rw [if_pos h3]
          exact ((ih _).trans (List.drop_sublist 2 cs)).trans (List.sublist_cons_self c cs)
        · rw [if_neg h3]
          exact List.Sublist.cons₂ c (ih cs)

/-- `stripFences` only deletes characters. -/
theorem stripFences_sublist (s : List Char) : List.Sublist (stripFences s) s :=
  stripFencesF_sublist s.length s

/-- `pyStrip` only deletes characters. -/
theorem pyStrip_sublist (s : List Char) : List.Sublist (pyStrip s) s := by
  unfold pyStrip
  have h1 : List.Sublist ((s.dropWhile isPySpace).reverse.dropWhile isPySpace)
      (s.dropWhile isPySpace).reverse := List.dropWhile_sublist _
  have h2 := h1.reverse
  rw [List.reverse_reverse] at h2
  exact h2.trans (List.dropWhile_sublist _)

/-- A brace span survives any supersequence: deleting characters cannot
create one, so its presence in a sublist forces it in the full list. -/
theorem SpanIn.of_sublist {t s : List Char} (hsub : List.Sublist t s) :
    SpanIn t → SpanIn s := by
  induction hsub with
  | slnil => exact id
  | cons x hsub ih =>
    intro h
    obtain ⟨a, b, c, heq⟩ := ih h
    exact ⟨x :: a, b, c, by rw [heq]; rfl⟩
  | cons₂ x hsub ih =>
    intro h
    obtain ⟨a, b, c, heq⟩ := h
    cases a with
    | nil =>
      rw [List.nil_append] at heq
      injection heq with hx htl
      have hmem : '\x7d' ∈ b ++ '\x7d' :: c :=
        List.mem_append_right b (List.mem_cons_self _ _)
      rw [← htl] at hmem
      obtain ⟨u, v, huv⟩ := List.append_of_mem (hsub.subset hmem)
      refine ⟨[], u, v, ?_⟩
      rw [List.nil_append, hx, huv]
    | cons x2 a1 =>
      rw [List.cons_append] at heq
      injection heq with hx htl
      obtain ⟨a3, b3, c3, heq3⟩ := ih ⟨a1, b, c, htl⟩
      refine ⟨x :: a3, b3, c3, ?_⟩
      rw [List.cons_append, heq3]

/-- A successful span search exhibits a brace span in its input. -/
theorem spanIn_of_findSpan_some {s u : List Char} (h : findSpan s = some u) :
    SpanIn s := by
  simp only [findSpan] at h
  split at h
  case isFalse => cases h
  case isTrue hcond =>
    set t := s.dropWhile (fun c => !(c = '\x7b')) with ht
    set r := t.reverse.dropWhile (fun c => !(c = '\x7d')) with hr
    set w0 := t.reverse.takeWhile (fun c => !(c = '\x7d')) with hw0
    rw [List.length_reverse] at hcond
    obtain ⟨d, r1, hdr⟩ : ∃ d r1, r = d :: r1 := by
      cases hcase : r with
      | nil => rw [hcase] at hcond; simp at hcond
      | cons d r1 => exact ⟨d, r1, rfl⟩
    have hd : d = '\x7d' := by
      have hstep := dropWhile_head_false t.reverse d r1 (hr.symm.trans hdr)
      simpa using hstep
    have htdec : t = r1.reverse ++ '\x7d' :: w0.reverse := by
      have hsplit : t.reverse = w0 ++ r :=
        (List.takeWhile_append_dropWhile _ _).symm
      have h2 := congrArg List.reverse hsplit
      rw [List.reverse_reverse, List.reverse_append, hdr, hd, List.reverse_cons,
        List.append_assoc, List.singleton_append] at h2
      exact h2
    obtain ⟨e, m, hem⟩ : ∃ e m, r1.reverse = e :: m := by
      have hlen1 : 1 ≤ r1.length := by
        rw [hdr] at hcond
        simp only [List.length_cons] at hcond
        omega
      cases hcase : r1.reverse with
      | nil =>
        rw [List.reverse_eq_nil_iff] at hcase
        rw [hcase] at hlen1
        simp at hlen1
      | cons e m => exact ⟨e, m, rfl⟩
    rw [hem] at htdec
    have hth : t = e :: (m ++ '\x7d' :: w0.reverse) := by
      rw [htdec]
      rfl
    have he : e = '\x7b' := by
      have hstep := dropWhile_head_false s e (m ++ '\x7d' :: w0.reverse)
        (ht.symm.trans hth)
      simpa using hstep
    refine ⟨s.takeWhile (fun c => !(c = '\x7b')), m, w0.reverse, ?_⟩
    conv_lhs => rw [← List.takeWhile_append_dropWhile (fun c => !(c = '\x7b')) s, ← ht]
    rw [hth, he]

/-- Characters that pass through a JSON string literal unchanged: not a
quote, not a backslash, not a control character. -/
def PlainChar (c : Char) : Prop :=
  c ≠ '"' ∧ c ≠ '\\' ∧ 32 ≤ c.toNat

instance (c : Char) : Decidable (PlainChar c) := by
  unfold PlainChar
  infer_instance

/-- Whitespace skipping stops at once on a non-whitespace head. -/
theorem skipWs_cons_of_neg {c : Char} (hc : jsonWs c = false) (l : List Char) :
    skipWs (c :: l) = c :: l := by
  unfold skipWs
  exact List.dropWhile_cons_of_neg (by simp [hc])

/-- Normalization is the identity on spans without control characters. -/
theorem normalizeWs_eq_self {s : List Char} (h : ∀ c ∈ s, 32 ≤ c.toNat) :
    normalizeWs s = s := by
  unfold normalizeWs
  induction s with
  | nil => rfl
  | cons c cs ih =>
    have hc := h c (List.mem_cons_self _ _)
    have hno : ¬(c = '\n' ∨ c = '\r' ∨ c = '\t') := by
      rintro (rfl | rfl | rfl) <;> exact absurd hc (by decide)
    rw [List.map_cons, if_neg hno, ih (fun x hx => h x (List.mem_cons_of_mem _ hx))]

/-- Fence stripping is the identity on backtick-free text. -/
theorem stripFencesF_eq_self : ∀ (n : Nat) (s : List Char), s.length ≤ n →
    (∀ c ∈ s, c ≠ btk) → stripFencesF n s = s := by
  intro n
  induction n with
  | zero =>
    intro s hlen h
    rw [List.eq_nil_of_length_eq_zero (Nat.le_zero.mp hlen)]
    rfl
  | succ n ih =>
    intro s hlen h
    match s with
    | [] => rfl
    | c :: cs =>
      have hc : c ≠ btk := h c (List.mem_cons_self _ _)
      have hbeq : (btk == c) = false := by
        rw [beq_eq_false_iff_ne]
        exact fun he => hc he.symm
      have h7 : fenceJson.isPrefixOf (c :: cs) = false := by
        simp only [fenceJson, List.isPrefixOf, hbeq, Bool.false_and]
      have h3 : fence3.isPrefixOf (c :: cs) = false := by
        simp only [fence3, List.isPrefixOf, hbeq, Bool.false_and]
      simp only [stripFencesF, h7, h3, Bool.false_eq_true, if_false]
      rw [ih cs (by simpa using Nat.le_of_succ_le_succ hlen)
        (fun x hx => h x (List.mem_cons_of_mem _ hx))]

/-- Fence stripping is the identity on backtick-free text. -/
theorem stripFences_eq_self {s : List Char} (h : ∀ c ∈ s, c ≠ btk) :
    stripFences s = s :=
  stripFencesF_eq_self s.length s (Nat.le_refl _) h

/-- A string-literal body of plain characters parses to exactly those
characters, consuming the closing quote. -/
theorem parseStringBody_plain : ∀ (fb rest : List Char), (∀ c ∈ fb, PlainChar c) →
    parseStringBody (fb ++ '"' :: rest) = some (fb, rest) := by
  intro fb
  induction fb with
  | nil =>
    intro rest h
    rw [List.nil_append, parseStringBody.eq_def]
    simp
  | cons c cs1 ih =>
    intro rest h
    obtain ⟨hq, hbs, hge⟩ := h c (List.mem_cons_self _ _)
    rw [List.cons_append, parseStringBody.eq_def]
    simp only []
    rw [if_neg hq, if_neg hbs, if_neg (by omega : ¬ c.toNat < 32)]
    rw [ih rest (fun c2 hm => h c2 (List.mem_cons_of_mem _ hm))]
    rfl

set_option maxHeartbeats 1000000 in
/-- A plain-character string value parses as a JSON string, leaving the input
that follows the closing quote. -/
theorem parseValue_plain_string (k : Nat) (fb rest : List Char)
    (h : ∀ c ∈ fb, PlainChar c) :
    parseValue (k + 1) ('"' :: (fb ++ '"' :: rest)) =
      some (Json.str (String.mk fb), rest) := by
  simp only [parseValue]
  rw [skipWs_cons_of_neg (by decide : jsonWs '"' = false)]
  simp only []
  rw [parseStringBody_plain fb rest h]
  rfl

/-- The member list `"feedback":"<plain>"` followed by the closing brace
parses to exactly one member appended to the accumulator. -/
theorem parseMembers_feedback (k : Nat) (fb : List Char) (acc : List (String × Json))
    (h : ∀ c ∈ fb, PlainChar c) :
    parseMembers (k + 2)
      ('"' :: 'f' :: 'e' :: 'e' :: 'd' :: 'b' :: 'a' :: 'c' :: 'k' :: '"' :: ':' :: '"'
        :: (fb ++ '"' :: '\x7d' :: [])) acc =
      some (Json.obj (acc ++ [("feedback", Json.str (String.mk fb))]), []) := by
  have hkey : parseStringBody ('f' :: 'e' :: 'e' :: 'd' :: 'b' :: 'a' :: 'c' :: 'k' :: '"'
      :: ':' :: '"' :: (fb ++ '"' :: '\x7d' :: [])) =
      some (['f', 'e', 'e', 'd', 'b', 'a', 'c', 'k'],
        ':' :: '"' :: (fb ++ '"' :: '\x7d' :: [])) := by
    have hk := parseStringBody_plain ['f', 'e', 'e', 'd', 'b', 'a', 'c', 'k']
      (':' :: '"' :: (fb ++ '"' :: '\x7d' :: [])) (by decide)
    simpa using hk
  simp only [parseMembers]
  rw [hkey]
  simp only []
  rw [skipWs_cons_of_neg (by decide : jsonWs ':' = false)]
  simp only []
  rw [parseValue_plain_string k fb ('\x7d' :: []) h]
  simp only []
  rw [skipWs_cons_of_neg (by decide : jsonWs '\x7d' = false)]
  rfl

/-- The whole span `{"feedback":"<plain>"}` parses to the one-member object,
for any sufficient fuel. -/
theorem parseValue_feedback_object (f : Nat) (hf : 3 ≤ f) (fb : List Char)
    (h : ∀ c ∈ fb, PlainChar c) :
    parseValue f
      ('\x7b' :: '"' :: 'f' :: 'e' :: 'e' :: 'd' :: 'b' :: 'a' :: 'c' :: 'k' :: '"' :: ':'
        :: '"' :: (fb ++ '"' :: '\x7d' :: [])) =
      some (Json.obj [("feedback", Json.str (String.mk fb))], []) := by
  obtain ⟨k, rfl⟩ := Nat.exists_eq_add_of_le hf
  rw [Nat.add_comm 3 k]
  show parseValue ((k + 2) + 1) _ = _
  simp only [parseValue]
  rw [skipWs_cons_of_neg (by decide : jsonWs '\x7b' = false)]
  exact parseMembers_feedback k fb [] h

/-- `json.loads` of the span `{"feedback":"<plain>"}` produces the one-member
object. -/
theorem json_loads_feedback_object (fb : List Char) (h : ∀ c ∈ fb, PlainChar c) :
    json_loads
      ('\x7b' :: '"' :: 'f' :: 'e' :: 'e' :: 'd' :: 'b' :: 'a' :: 'c' :: 'k' :: '"' :: ':'
        :: '"' :: (fb ++ '"' :: '\x7d' :: [])) =
      some (Json.obj [("feedback", Json.str (String.mk fb))]) := by
  unfold json_loads
  rw [parseValue_feedback_object _ (by omega) fb h]
  rfl

/-- Stripping outer whitespace preserves the bracketed shape, shrinking only
the prose on each side. -/
theorem pyStrip_shape (a m b : List Char) :
    ∃ a1 b1 : List Char,
      pyStrip (a ++ '\x7b' :: (m ++ '\x7d' :: b)) = a1 ++ '\x7b' :: (m ++ '\x7d' :: b1) ∧
      (∀ c ∈ a1, c ∈ a) ∧ (∀ c ∈ b1, c ∈ b) := by
  refine ⟨a.dropWhile isPySpace, (b.reverse.dropWhile isPySpace).reverse, ?_, ?_, ?_⟩
  · unfold pyStrip
    rw [dropWhile_append_cons_of_neg isPySpace '\x7b' (by decide) a (m ++ '\x7d' :: b)]
    simp only [List.reverse_append, List.reverse_cons, List.append_assoc,
      List.singleton_append, List.cons_append, List.nil_append]
    rw [dropWhile_append_cons_of_neg isPySpace '\x7d' (by decide) b.reverse
      (m.reverse ++ '\x7b' :: (a.dropWhile isPySpace).reverse)]
    simp only [List.reverse_append, List.reverse_cons, List.append_assoc,
      List.singleton_append, List.cons_append, List.nil_append, List.reverse_reverse]
  · exact fun c hc => List.dropWhile_subset _ hc
  · exact fun c hc =>
      List.mem_reverse.mp (List.dropWhile_subset _ (List.mem_reverse.mp hc))

/-- The span search on brace-free prose around a single bracketed body
returns the body with its braces, exactly. -/
theorem findSpan_span (a m b : List Char) (ha : ∀ c ∈ a, c ≠ '\x7b')
    (hb : ∀ c ∈ b, c ≠ '\x7d') :
    findSpan (a ++ '\x7b' :: (m ++ '\x7d' :: b)) = some ('\x7b' :: (m ++ ['\x7d'])) := by
  have hda : a.dropWhile (fun c => !(c = '\x7b')) = [] := by
    rw [List.dropWhile_eq_nil_iff]
    intro x hx
    simp [ha x hx]
  have hdb : b.reverse.dropWhile (fun c => !(c = '\x7d')) = [] := by
    rw [List.dropWhile_eq_nil_iff]
    intro x hx
    simp [hb x (List.mem_reverse.mp hx)]
  simp only [findSpan]
  rw [dropWhile_append_cons_of_neg (fun c => !(c = '\x7b')) '\x7b' (by decide) a
    (m ++ '\x7d' :: b), hda, List.nil_append]
  simp only [List.reverse_cons, List.reverse_append, List.append_assoc,
    List.singleton_append, List.cons_append, List.nil_append]
  rw [dropWhile_append_cons_of_neg (fun c => !(c = '\x7d')) '\x7d' (by decide) b.reverse
    (m.reverse ++ '\x7b' :: []), hdb, List.nil_append]
  simp only [List.reverse_cons, List.reverse_append, List.append_assoc,
    List.singleton_append, List.cons_append, List.nil_append, List.reverse_reverse,
    List.length_append, List.length_cons, List.length_reverse]
  rw [if_pos (by omega)]
  rfl

/-- Looking up a key that no member carries yields nothing. -/
theorem lookup_eq_none_of_not_mem_keys {l : List (String × Json)} {k : String}
    (h : ∀ kv ∈ l, kv.1 ≠ k) : l.lookup k = none := by
  induction l with
  | nil => rfl
  | cons kv rest ih =>
    have hk : kv.1 ≠ k := h kv (List.mem_cons_self kv rest)
    have hbeq : (k == kv.1) = false := by
      rw [beq_eq_false_iff_ne]
      exact fun he => hk he.symm
    obtain ⟨a, b⟩ := kv
    simp only [List.lookup, hbeq]
    exact ih (fun kv2 hm => h kv2 (List.mem_cons_of_mem _ hm))

/-! ## Claims -/

/-- C9: `GET /ping` returns the literal `"pong"` in every system state (for
any remaining upstream script), consumes no upstream reply, issues no
completion call, and never fails. -/
theorem ping_always_pong (script : LLMScript) :
    ping script = (Response.ok (Json.str ("pong")), script, []) := rfl

/-- C5: for every valid patient record, `generate_v1` issues exactly one
completion call, carrying the draft prompt at temperature 0.2 (= 1/5), and
returns the upstream reply's text content unchanged; an upstream failure
propagates with no local recovery. -/
theorem generate_v1_one_call_temp_02 (patient : Patient)
    (rep : Except String String) (rest : LLMScript) :
    generate_v1 patient (rep :: rest) =
      ((match rep with
        | Except.ok content => Except.ok content
        | Except.error msg => Except.error (PyErr.upstream msg)),
       rest, [⟨[⟨"user", generate_v1_prompt patient⟩], 1 / 5⟩]) := by
  cases rep <;> rfl

/-- C2: if the feedback-stage completion call fails, the `api_refine` flow
makes no further completion call: the call log holds exactly the
feedback-stage call, the upstream error propagates, and no partial result is
produced. -/
theorem api_refine_flow_fail_fast (patient : Patient) (v1 msg : String)
    (rest : LLMScript) :
    api_refine_flow patient v1 (Except.error msg :: rest) =
      (Except.error (PyErr.upstream msg), rest,
       [⟨[⟨"user", self_refine_prompt patient v1⟩], 0⟩]) := rfl

/-- C6: whenever the feedback reply extracts to a string `fbk`, the
`api_refine` flow calls the feedback-stage completion (temperature 0) first
and the refine-stage completion (temperature 0.2) second — the call log lists
them in that order and the second consumes the later scripted reply — and the
refine-stage prompt contains `fbk` verbatim. -/
theorem api_refine_flow_order_and_feedback_verbatim (patient : Patient)
    (v1 raw fbk : String) (r2 : Except String String) (rest : LLMScript)
    (h : extract_feedback raw = Except.ok (Json.str fbk)) :
    ∃ pre post : String,
      generate_v3_prompt patient v1 fbk = pre ++ fbk ++ post ∧
      api_refine_flow patient v1 (Except.ok raw :: r2 :: rest) =
        ((match r2 with
          | Except.ok v3 => Except.ok (Json.str fbk, v3)
          | Except.error msg => Except.error (PyErr.upstream msg)),
         rest,
         [⟨[⟨"user", self_refine_prompt patient v1⟩], 0⟩,
          ⟨[⟨"user", generate_v3_prompt patient v1 fbk⟩], 1 / 5⟩]) := by
  refine ⟨"你是儿科临床药师。\n请根据下方「V1 内容」和「审方反馈」重写一份完整、准确、家长友好的 V3 用药教育，必须满足：\n\n1. 禁止出现任何 Markdown 符号（如 ###、***、** 等）；\n2. 标题仅用中文数字序号（如“1. 药物作用和目的”），下方用“- ”引出清单；\n3. 包含且仅包含以下 6 个小节：\n   - 前言（原因、药名、类别、祝愿）\n   - 1. 药物作用和目的\n   - 2. 剂量和给药时间（含漏服处理、分剂量操作）\n   - 3. 不良反应监测（≥3 条常见表现）\n   - 4. 药物相互作用（简洁提醒）\n   - 5. 储存管理（温度、避光、有效期）\n   - 6. 生活方式建议（饮食、作息、复诊）\n   - 如有疑问请随时联系儿科医生或药师，我们将持续为您和孩子的健康保驾护航。祝孩子早日康复！\n4. 全文不要再出现任何额外解释或总结。\n\n【患者信息】\n"
      ++ dumpsPatientIndent2 patient ++ "\n\n【V1 内容】\n" ++ v1 ++ "\n\n【审方反馈】\n",
    "\n\n直接输出最终用药教育全文，不要额外解释。\n", rfl, ?_⟩
  simp only [api_refine_flow, self_refine_education, chat]
  rw [h]
  cases r2 <;> rfl

/-- C10: when the located span parses as a JSON object in which the last
`feedback` member carries the value `v` — of any JSON type — the extraction
step returns `v` unchanged: no type check, coercion, or error intervenes, so
the feedback stage's annotated string return type is not enforced. -/
theorem extract_feedback_no_type_check (raw : String) (span : List Char)
    (members : List (String × Json)) (v : Json)
    (h1 : findSpan (pyStrip (stripFences raw.data)) = some span)
    (h2 : json_loads (normalizeWs span) = some (Json.obj members))
    (h3 : members.reverse.lookup ("feedback") = some v) :
    extract_feedback raw = Except.ok v := by
  simp only [extract_feedback, h1, h2, pyDictGet, h3]

/-- Witness for C10: a `feedback` member holding JSON `null` (a non-string)
is returned unchanged and raises nothing. -/
theorem extract_feedback_no_type_check_witness :
    extract_feedback ("\x7b\"feedback\": null\x7d") = Except.ok Json.null :=
  extract_feedback_no_type_check ("\x7b\"feedback\": null\x7d")
    (("\x7b\"feedback\": null\x7d" : String).data)
    [("feedback", Json.null)] Json.null rfl rfl rfl

/-- C7: when the located span parses as a JSON object none of whose members
is named `feedback`, extraction returns the empty string rather than
raising. -/
theorem extract_feedback_missing_field_empty (raw : String) (span : List Char)
    (members : List (String × Json))
    (h1 : findSpan (pyStrip (stripFences raw.data)) = some span)
    (h2 : json_loads (normalizeWs span) = some (Json.obj members))
    (h3 : ∀ kv ∈ members, kv.1 ≠ "feedback") :
    extract_feedback raw = Except.ok (Json.str ("")) := by
  simp only [extract_feedback, h1, h2, pyDictGet,
    lookup_eq_none_of_not_mem_keys (fun kv hm => h3 kv (List.mem_reverse.mp hm))]

/-- Witness for C7: an object with only an `other` member extracts to `""`. -/
theorem extract_feedback_missing_field_empty_witness :
    extract_feedback ("\x7b\"other\":\"x\"\x7d") = Except.ok (Json.str ("")) :=
  extract_feedback_missing_field_empty ("\x7b\"other\":\"x\"\x7d")
    (("\x7b\"other\":\"x\"\x7d" : String).data)
    [("other", Json.str ("x"))] rfl rfl (by decide)

/-- C4: after the normalization step no literal newline, carriage return, or
tab remains in the span handed to the JSON parser, and consequently a raw
newline (or carriage return / tab) inside the string value does not make
extraction fail: the spec's example with a real newline between `ok` and
`line` yields exactly `"ok line"`, and a carriage return and tab each become
one space. -/
theorem normalizeWs_kills_control_bytes :
    (∀ span : List Char,
      (normalizeWs span).all (fun c => !(c = '\n' || c = '\r' || c = '\t')) = true) ∧
    extract_feedback ("blah \x7b\"feedback\":\"ok\nline\"\x7d blah") =
      Except.ok (Json.str ("ok line")) ∧
    extract_feedback ("\x7b\"feedback\":\"a\r\tb\"\x7d") =
      Except.ok (Json.str ("a  b")) := by
  refine ⟨?_, rfl, rfl⟩
  intro span
  rw [List.all_eq_true]
  intro c hc
  simp only [normalizeWs, List.mem_map] at hc
  obtain ⟨c0, _, hmap⟩ := hc
  subst hmap
  by_cases h0 : c0 = '\n' ∨ c0 = '\r' ∨ c0 = '\t'
  · simp [h0]
  · push_neg at h0
    simp [if_neg, h0]

/-- Witness for C6 at a concrete patient, draft, and feedback reply. -/
theorem api_refine_flow_order_witness :
    ∃ pre post : String,
      generate_v3_prompt ⟨"小明", "5", "男", "支气管炎", "阿莫西林", "5ml每日两次"⟩
          ("draft") ("good") = pre ++ "good" ++ post ∧
      api_refine_flow ⟨"小明", "5", "男", "支气管炎", "阿莫西林", "5ml每日两次"⟩ ("draft")
          (Except.ok ("\x7b\"feedback\":\"good\"\x7d") :: Except.ok ("v3 text") :: []) =
        (Except.ok (Json.str ("good"), "v3 text"), [],
         [⟨[⟨"user", self_refine_prompt ⟨"小明", "5", "男", "支气管炎", "阿莫西林", "5ml每日两次"⟩ ("draft")⟩], 0⟩,
          ⟨[⟨"user", generate_v3_prompt ⟨"小明", "5", "男", "支气管炎", "阿莫西林", "5ml每日两次"⟩ ("draft") ("good")⟩], 1 / 5⟩]) :=
  api_refine_flow_order_and_feedback_verbatim
    ⟨"小明", "5", "男", "支气管炎", "阿莫西林", "5ml每日两次"⟩ ("draft")
    ("\x7b\"feedback\":\"good\"\x7d") ("good") (Except.ok ("v3 text")) [] rfl

/-- C8 counterexample: the claim says a payload missing a required patient
field is rejected through the same generic 500 internal-error path as
upstream failures.  In fact the payload below (missing `用量`) is answered by
the framework's 422 validation response before the handler and its 500 path
ever run, and no completion call is made, whereas an upstream failure on a
well-formed payload is answered through the 500 path — the two responses are
different. -/
theorem api_v1_validation_not_500 :
    api_v1 (Json.obj [("patient", Json.obj
        [("姓名", Json.str ("小明")), ("年龄", Json.str ("5")),
         ("性别", Json.str ("男")), ("诊断", Json.str ("支气管炎")),
         ("药品", Json.str ("阿莫西林"))])])
      [Except.error ("boom")] =
      (Response.validationError 422, [Except.error ("boom")], []) ∧
    api_v1 (Json.obj [("patient", Json.obj
        [("姓名", Json.str ("小明")), ("年龄", Json.str ("5")),
         ("性别", Json.str ("男")), ("诊断", Json.str ("支气管炎")),
         ("药品", Json.str ("阿莫西林")), ("用量", Json.str ("5ml每日两次"))])])
      [Except.error ("boom")] =
      (Response.httpError 500 ("boom"), [],
       [⟨[⟨"user", generate_v1_prompt ⟨"小明", "5", "男", "支气管炎", "阿莫西林", "5ml每日两次"⟩⟩], 1 / 5⟩]) ∧
    Response.validationError 422 ≠ Response.httpError 500 ("boom") :=
  ⟨rfl, rfl, fun hcontra => Response.noConfusion hcontra⟩

/-- C8 (amended): every inbound payload that fails validation against the
request model — a required patient field missing or non-text — is rejected
before the orchestrator runs, with no completion call issued, and is surfaced
through the framework's 422 request-validation response, which is distinct
from the generic 500 internal-error path used for upstream failures. -/
theorem api_v1_validation_rejects_before_orchestrator (payload : Json)
    (script : LLMScript) (h : parseV1Request payload = none) :
    api_v1 payload script = (Response.validationError 422, script, []) := by
  simp only [api_v1, h]

/-- Witness for the amended C8 at the concrete payload missing `用量`. -/
theorem api_v1_validation_rejects_witness :
    api_v1 (Json.obj [("patient", Json.obj
        [("姓名", Json.str ("小明")), ("年龄", Json.str ("5")),
         ("性别", Json.str ("男")), ("诊断", Json.str ("支气管炎")),
         ("药品", Json.str ("阿莫西林"))])]) [] =
      (Response.validationError 422, [], []) :=
  api_v1_validation_rejects_before_orchestrator
    (Json.obj [("patient", Json.obj
        [("姓名", Json.str ("小明")), ("年龄", Json.str ("5")),
         ("性别", Json.str ("男")), ("诊断", Json.str ("支气管炎")),
         ("药品", Json.str ("阿莫西林"))])]) [] rfl

/-- C3: for every raw model-output string containing no brace-delimited
span — no opening brace anywhere before a closing brace — the extraction
step fails with the error modelling the
`RuntimeError("LLM 未返回合法 JSON 结构")` raise (the spec's
`MalformedModelOutput`): fence stripping and whitespace stripping only delete
characters, so the span search still finds nothing and the function raises
instead of returning a value. -/
theorem extract_feedback_no_span_raises (raw : String) (h : ¬ SpanIn raw.data) :
    extract_feedback raw = Except.error ExtractError.noJsonSpan := by
  cases hf : findSpan (pyStrip (stripFences raw.data)) with
  | none => simp only [extract_feedback, hf]
  | some u =>
    exact absurd
      (SpanIn.of_sublist ((pyStrip_sublist _).trans (stripFences_sublist _))
        (spanIn_of_findSpan_some hf)) h

/-- Witness for C3 at a string whose only braces are a closing one before an
opening one. -/
theorem extract_feedback_no_span_raises_witness :
    extract_feedback ("x \x7d y \x7b z") = Except.error ExtractError.noJsonSpan :=
  extract_feedback_no_span_raises ("x \x7d y \x7b z")
    (fun hsp => absurd (hasSpanB_of_spanIn hsp) (by decide))

set_option maxHeartbeats 1000000 in
/-- C1 (amended): for every raw model-output string of the form
`prose1 ++ {"feedback":"f"} ++ prose2` in which `prose1` contains no opening
brace, `prose2` contains no closing brace, neither prose part nor `f`
contains a backtick (so no fence marker is stripped), and `f` consists of
plain characters (no quote, no backslash, no control bytes), the extraction
step returns the contained feedback string `f` exactly, with no added or
removed characters. -/
theorem extract_feedback_exact (p1 fbk p2 : String)
    (h1 : ∀ c ∈ p1.data, c ≠ '\x7b' ∧ c ≠ btk)
    (h2 : ∀ c ∈ p2.data, c ≠ '\x7d' ∧ c ≠ btk)
    (h3 : ∀ c ∈ fbk.data, PlainChar c ∧ c ≠ btk) :
    extract_feedback (p1 ++ "\x7b\"feedback\":\"" ++ fbk ++ "\"\x7d" ++ p2) =
      Except.ok (Json.str fbk) := by
  have hdata : (p1 ++ "\x7b\"feedback\":\"" ++ fbk ++ "\"\x7d" ++ p2).data =
      p1.data ++ '\x7b' ::
        ((['"', 'f', 'e', 'e', 'd', 'b', 'a', 'c', 'k', '"', ':', '"'] ++
          (fbk.data ++ ['"'])) ++ '\x7d' :: p2.data) := by
    have hA : ("\x7b\"feedback\":\"" : String).data =
        ['\x7b', '"', 'f', 'e', 'e', 'd', 'b', 'a', 'c', 'k', '"', ':', '"'] := rfl
    have hB : ("\"\x7d" : String).data = ['"', '\x7d'] := rfl
    simp only [String.data_append, hA, hB, List.append_assoc, List.cons_append,
      List.nil_append]
  have hm0 : ∀ c ∈ (['"', 'f', 'e', 'e', 'd', 'b', 'a', 'c', 'k', '"', ':', '"'] ++
      (fbk.data ++ ['"'])), c ≠ btk := by
    intro c hc
    rcases List.mem_append.mp hc with hck | hcr
    · exact (by decide : ∀ x ∈ ['"', 'f', 'e', 'e', 'd', 'b', 'a', 'c', 'k', '"', ':', '"'],
        x ≠ btk) c hck
    · rcases List.mem_append.mp hcr with hcf | hcq
      · exact (h3 c hcf).2
      · rw [List.mem_singleton.mp hcq]
        decide
  have hnb : ∀ c ∈ p1.data ++ '\x7b' ::
      ((['"', 'f', 'e', 'e', 'd', 'b', 'a', 'c', 'k', '"', ':', '"'] ++
        (fbk.data ++ ['"'])) ++ '\x7d' :: p2.data), c ≠ btk := by
    intro c hc
    rcases List.mem_append.mp hc with hcp | hcr
    · exact (h1 c hcp).2
    · rcases List.mem_cons.mp hcr with rfl | hcr2
      · decide
      · rcases List.mem_append.mp hcr2 with hcm | hcb
        · exact hm0 c hcm
        · rcases List.mem_cons.mp hcb with rfl | hcp2
          · decide
          · exact (h2 c hcp2).2
  simp only [extract_feedback]
  rw [hdata, stripFences_eq_self hnb]
  obtain ⟨a1, b1, hps, hsub1, hsub2⟩ := pyStrip_shape p1.data
    (['"', 'f', 'e', 'e', 'd', 'b', 'a', 'c', 'k', '"', ':', '"'] ++ (fbk.data ++ ['"']))
    p2.data
  rw [hps, findSpan_span a1 _ b1 (fun c hc => (h1 c (hsub1 c hc)).1)
    (fun c hc => (h2 c (hsub2 c hc)).1)]
  simp only []
  have hge : ∀ c ∈ '\x7b' ::
      ((['"', 'f', 'e', 'e', 'd', 'b', 'a', 'c', 'k', '"', ':', '"'] ++
        (fbk.data ++ ['"'])) ++ ['\x7d']), 32 ≤ c.toNat := by
    intro c hc
    rcases List.mem_cons.mp hc with rfl | hc2
    · decide
    · rcases List.mem_append.mp hc2 with hcm | hcq
      · rcases List.mem_append.mp hcm with hck | hcr
        · exact (by decide : ∀ x ∈ ['"', 'f', 'e', 'e', 'd', 'b', 'a', 'c', 'k', '"', ':', '"'],
            32 ≤ x.toNat) c hck
        · rcases List.mem_append.mp hcr with hcf | hcq2
          · exact (h3 c hcf).1.2.2
          · rw [List.mem_singleton.mp hcq2]
            decide
      · rw [List.mem_singleton.mp hcq]
        decide
  rw [normalizeWs_eq_self hge]
  simp only [List.cons_append, List.nil_append, List.append_assoc]
  rw [json_loads_feedback_object fbk.data (fun c hc => (h3 c hc).1)]
  rfl

/-- C1 counterexample: the input below contains the well-formed object
`{"feedback":"hi"}` surrounded by prose (the shown decomposition), yet the
prose holds an extra opening brace, so the widest-span search hands the JSON
parser the span `{ x {"feedback":"hi"}` and extraction raises a JSON parse
error instead of returning `"hi"`. -/
theorem extract_feedback_not_exact :
    ("\x7b x \x7b\"feedback\":\"hi\"\x7d" : String) =
      "\x7b x " ++ "\x7b\"feedback\":\"hi\"\x7d" ++ "" ∧
    extract_feedback ("\x7b x \x7b\"feedback\":\"hi\"\x7d") =
      Except.error ExtractError.jsonParseError :=
  ⟨rfl, rfl⟩

/-- Witness for the amended C1 at concrete prose and feedback. -/
theorem extract_feedback_exact_witness :
    extract_feedback ("模型输出： " ++ "\x7b\"feedback\":\"" ++ "建议补充漏服处理。" ++ "\"\x7d" ++ " 完毕") =
      Except.ok (Json.str ("建议补充漏服处理。")) :=
  extract_feedback_exact ("模型输出： ") ("建议补充漏服处理。") (" 完毕")
    (by decide) (by decide) (by decide)

end ZJJ
